import Mathlib

/-!
Verification development for the chat-app repository.

The relevant TypeScript code is embedded shallowly:

* A reactions map (a JS object mapping an emoji string to a bucket object
  holding a `userIds` array) is embedded as an association list
  `List (String × List String)` with pairwise distinct keys, in insertion
  order; JS object key lookup is the first (and, with distinct keys, only)
  matching entry, key deletion removes the entry, and creation of a new key
  appends it at the end.
* Firestore documents become Lean structures with `Option` fields for the
  optional TS fields; a missing field is `none`.
* JS truthiness on an optional string (used by patterns such as
  `...(replyTo && \x7b replyTo \x7d)`) is captured by `truthyStr`: both a
  missing value and the empty string are falsy.
* Promise pipelines become state-passing functions returning an
  `Except` outcome together with the updated store and the list of console
  log messages emitted; backend failures that the code merely observes are
  injected as boolean parameters.
-/

namespace ChatApp

/-- JS truthiness for an optional string: `none` and `""` are falsy. -/
def truthyStr : Option String → Option String
  | some s => if s = "" then none else some s
  | none => none

/-- The file metadata the service reads off a JS `File` object. -/
structure FileInfo where
  name : String
  size : Nat
deriving Repr, DecidableEq

/-- Embedding of the `Message` interface of `message.service.ts`.
Optional TS fields are `Option`; `timestamp` is an abstract tick. -/
structure Message where
  content : String
  senderId : String
  timestamp : Nat
  fileUrl : Option String := none
  fileDeleted : Option Bool := none
  id : Option String := none
  fileName : Option String := none
  fileSize : Option Nat := none
  deleted : Option Bool := none
  reactions : Option (List (String × List String)) := none
  replyTo : Option String := none
  replies : Option Nat := none
deriving Repr, DecidableEq

/-- JS object lookup on the association-list embedding of a reactions map. -/
def rlookup (k : String) : List (String × List String) → Option (List String)
  | [] => none
  | (k2, ids) :: rest => if k2 = k then some ids else rlookup k rest

/-- First phase of `ChatComponent.createReactionUpdate`: the `for...in` loop
that removes the acting user from every bucket containing it and deletes a
bucket whose `userIds` array becomes empty. -/
def reactionRemovePass (u : String) : List (String × List String) → List (String × List String)
  | [] => []
  | (k, ids) :: rest =>
    if u ∈ ids then
      if (ids.filter (fun i => decide (i ≠ u))).isEmpty then reactionRemovePass u rest
      else (k, ids.filter (fun i => decide (i ≠ u))) :: reactionRemovePass u rest
    else (k, ids) :: reactionRemovePass u rest

/-- Second phase of `ChatComponent.createReactionUpdate`: push the acting
user onto the bucket of the target emoji, creating the bucket (as a new,
last key of the JS object) when absent. -/
def reactionAddPass (u e : String) : List (String × List String) → List (String × List String)
  | [] => [(e, [u])]
  | (k, ids) :: rest =>
    if k = e then (k, ids ++ [u]) :: rest
    else (k, ids) :: reactionAddPass u e rest

namespace ChatComponent

/-- `ChatComponent.createReactionUpdate(message, emoji)` with acting user
`u` (the non-null-asserted `this.currentUserId!`): copy the reactions map
(`\x7b\x7d` when the field is missing), remove the user everywhere, add it to
the target bucket, and return the message with the new map. -/
def createReactionUpdate (u e : String) (m : Message) : Message :=
  { m with reactions := some (reactionAddPass u e (reactionRemovePass u (m.reactions.getD []))) }

end ChatComponent

/-- Membership of user `v` in the bucket of emoji `k` of a reactions map. -/
def userInBucket (v k : String) (rs : List (String × List String)) : Bool :=
  decide (v ∈ (rlookup k rs).getD [])

/-- The spec invariant: each user id occurs in at most one emoji bucket. -/
def atMostOnePerUser (rs : List (String × List String)) : Prop :=
  ∀ p1 ∈ rs, ∀ p2 ∈ rs, ∀ v ∈ p1.2, v ∈ p2.2 → p1.1 = p2.1

instance (rs : List (String × List String)) : Decidable (atMostOnePerUser rs) := by
  unfold atMostOnePerUser; infer_instance

/-- Effect of the removal loop on a single looked-up bucket, as the spec
describes it: the acting user is removed from a bucket containing it, and
the bucket is deleted when its user list becomes empty; a bucket not
containing the user is untouched. -/
def removeUserFromBucket (u : String) : Option (List String) → Option (List String)
  | none => none
  | some ids =>
    if u ∈ ids then
      if (ids.filter (fun i => decide (i ≠ u))).isEmpty then none
      else some (ids.filter (fun i => decide (i ≠ u)))
    else some ids

/-- Concrete message used to instantiate the reaction-update theorems. -/
def reactionSampleMessage : Message :=
  { content := "hello"
    senderId := "user1"
    timestamp := 0
    reactions := some [("up", ["user1"]), ("heart", ["user2"])] }

/-- Character-level embedding of `content.replace` of all newline
characters by the string of the br tag. -/
def replaceNewlineChars : List Char → List Char
  | [] => []
  | c :: rest =>
    if c = '\n' then '<' :: 'b' :: 'r' :: '>' :: replaceNewlineChars rest
    else c :: replaceNewlineChars rest

/-- Chat type discriminator, `single` or `group`. -/
inductive ChatType
  | single
  | group
deriving Repr, DecidableEq

/-- Embedding of the `Chat` interface together with the database-assigned
document id. -/
structure Chat where
  id : String
  type : ChatType
  participants : List String
  name : Option String := none
  isPublic : Option Bool := none
  lastMessageTimestamp : Nat
deriving Repr, DecidableEq

/-- The per-chat slice of the Firestore store that `MessageService`
touches: the chat document (represented by its last-message timestamp when
the document exists) and its messages subcollection in insertion order. -/
structure ChatState where
  chatTimestamp : Option Nat
  msgs : List Message
deriving Repr, DecidableEq

namespace MessageService

/-- `createMessageData`: newline characters of the content become br tags,
`fileDeleted` and `deleted` start false, and the optional fields are
included only when truthy (url and reply id) or present (file). -/
def createMessageData (content : String) (uid : String) (timestamp : Nat)
    (fileUrl : Option String) (file : Option FileInfo) (replyTo : Option String) : Message :=
  { content := String.mk (replaceNewlineChars content.data)
    senderId := uid
    timestamp := timestamp
    fileDeleted := some false
    deleted := some false
    fileUrl := truthyStr fileUrl
    fileName := file.map (fun f => f.name)
    fileSize := file.map (fun f => f.size)
    replyTo := truthyStr replyTo }

/-- The stored form of a freshly added message document: the data built by
`createMessageData` together with the database-assigned id. -/
def sentMessage (newId content uid : String) (ts : Nat) (fileUrl : Option String)
    (file : Option FileInfo) (replyTo : Option String) : Message :=
  { createMessageData content uid ts fileUrl file replyTo with id := some newId }

/-- Lexicographic character-code comparison, the string relation of the JS
default array sort. -/
def strLeChars : List Char → List Char → Bool
  | [], _ => true
  | _ :: _, [] => false
  | a :: as, b :: bs =>
    if a.toNat < b.toNat then true
    else if b.toNat < a.toNat then false
    else strLeChars as bs

/-- String comparison on the character data. -/
def strLe (a b : String) : Bool :=
  strLeChars a.data b.data

/-- Insert a participant id into an already sorted list. -/
def orderedInsertStr (a : String) : List String → List String
  | [] => [a]
  | b :: bs => if strLe a b then a :: b :: bs else b :: orderedInsertStr a bs

/-- JS default array sort on the participant ids (stable insertion sort in
string order). -/
def sortParticipants : List String → List String
  | [] => []
  | a :: as => orderedInsertStr a (sortParticipants as)

/-- `addNewChat` merged with `createChatData`: the database assigns
`newId`, the name is stored only when truthy, `isPublic` whenever passed,
and the last-message timestamp is the creation date. -/
def addNewChat (newId : String) (now : Nat) (type : ChatType) (participants : List String)
    (name : Option String) (isPublic : Option Bool) (chats : List Chat) : String × List Chat :=
  (newId,
   chats ++ [{ id := newId, type := type, participants := participants,
               name := truthyStr name, isPublic := isPublic, lastMessageTimestamp := now }])

/-- The dedup query of `createSingleChat`: chats whose type is single and
whose participant list equals the sorted pair. -/
def singleChatQuery (participants : List String) (chats : List Chat) : List Chat :=
  chats.filter (fun c =>
    decide (c.type = ChatType.single ∧ c.participants = sortParticipants participants))

/-- `createSingleChat` with `handleSingleChatQuery`: query the chats
collection for single chats with the sorted participant list; reuse the
first match, otherwise add a new chat (note that the source sorts the
participants array in place, so the new chat stores the sorted list). -/
def createSingleChat (newId : String) (now : Nat) (participants : List String)
    (name : Option String) (isPublic : Option Bool) (chats : List Chat) : String × List Chat :=
  match singleChatQuery participants chats with
  | [] => addNewChat newId now ChatType.single (sortParticipants participants) name isPublic chats
  | c :: _ => (c.id, chats)

/-- `createGroupChat`: unconditionally add a new chat document. -/
def createGroupChat (newId : String) (now : Nat) (type : ChatType) (participants : List String)
    (name : Option String) (isPublic : Option Bool) (chats : List Chat) : String × List Chat :=
  addNewChat newId now type participants name isPublic chats

/-- `createChat`: dispatch on the chat type. The result is the resolved
chat id together with the updated chats collection. -/
def createChat (newId : String) (now : Nat) (type : ChatType) (participants : List String)
    (name : Option String) (isPublic : Option Bool) (chats : List Chat) : String × List Chat :=
  match type with
  | ChatType.single => createSingleChat newId now participants name isPublic chats
  | ChatType.group => createGroupChat newId now ChatType.group participants name isPublic chats

/-- `updateLastMessageTimestamp`: fire-and-forget update of the chat
document; a missing document is only logged. -/
def updateLastMessageTimestamp (ts : Nat) (st : ChatState) : ChatState × List String :=
  match st.chatTimestamp with
  | some _ => ({ st with chatTimestamp := some ts }, [])
  | none => (st, ["Chat document does not exist"])

/-- `updateReplyCount`: read the parent message, then write back its reply
counter incremented by one (a missing field counting as zero); a missing
parent or a rejected write is logged and rejects this secondary promise.
`writeOk` injects the outcome of the backend write. -/
def updateReplyCount (writeOk : Bool) (mid : String) (msgs : List Message) :
    Except String Unit × List Message × List String :=
  match msgs.find? (fun m => decide (m.id = some mid)) with
  | some m =>
    if writeOk then
      (Except.ok (),
       msgs.map (fun m2 =>
         if m2.id = some mid then { m2 with replies := some (m.replies.getD 0 + 1) } else m2),
       [])
    else
      (Except.error "update rejected", msgs,
       ["Error checking if message document exists"])
  | none =>
    (Except.error "Message document does not exist", msgs,
     ["Message document does not exist"])

/-- `addMessageToFirestore`: add the message document (`addOk` injects the
outcome), then fire-and-forget the chat-timestamp update and, when a reply
id is present, the reply-counter update; the returned promise resolves with
the new document id as soon as the add succeeded. -/
def addMessageToFirestore (addOk replyWriteOk : Bool) (newId : String)
    (content uid : String) (ts : Nat) (fileUrl : Option String) (file : Option FileInfo)
    (replyTo : Option String) (st : ChatState) :
    Except String String × ChatState × List String :=
  if addOk then
    let st1 : ChatState :=
      { st with msgs := st.msgs ++ [sentMessage newId content uid ts fileUrl file replyTo] }
    let ul := updateLastMessageTimestamp ts st1
    match truthyStr replyTo with
    | some r =>
      let ur := updateReplyCount replyWriteOk r ul.1.msgs
      (Except.ok newId, { ul.1 with msgs := ur.2.1 }, ul.2 ++ ur.2.2)
    | none => (Except.ok newId, ul.1, ul.2)
  else (Except.error "Error adding document", st, ["Error adding document"])

/-- `handleMessageData`: with a file, upload it (the resulting download url
is `uploadUrl`) and send; without one, send a plain text message. -/
def handleMessageData (addOk replyWriteOk : Bool) (newId uploadUrl : String)
    (content : String) (file : Option FileInfo) (uid : String) (ts : Nat)
    (replyTo : Option String) (st : ChatState) :
    Except String String × ChatState × List String :=
  match file with
  | some f =>
    addMessageToFirestore addOk replyWriteOk newId content uid ts (some uploadUrl) (some f) replyTo st
  | none => addMessageToFirestore addOk replyWriteOk newId content uid ts none none replyTo st

/-- `handleSendMessage`: reject with the no-user error when the current
auth user is null, leaving the store untouched. -/
def handleSendMessage (user : Option String) (addOk replyWriteOk : Bool)
    (newId uploadUrl : String) (content : String) (file : Option FileInfo)
    (ts : Nat) (replyTo : Option String) (st : ChatState) :
    Except String String × ChatState × List String :=
  match user with
  | none => (Except.error "No user found", st, [])
  | some uid => handleMessageData addOk replyWriteOk newId uploadUrl content file uid ts replyTo st

/-- `sendMessage`: take the current value of the auth user observable and
hand over to `handleSendMessage`. -/
def sendMessage (user : Option String) (addOk replyWriteOk : Bool)
    (newId uploadUrl : String) (content : String) (file : Option FileInfo)
    (ts : Nat) (replyTo : Option String) (st : ChatState) :
    Except String String × ChatState × List String :=
  handleSendMessage user addOk replyWriteOk newId uploadUrl content file ts replyTo st

/-- `updateMessageFileDeleted` builds the updated message written back to
the document. -/
def updateMessageFileDeleted (m : Message) : Message :=
  { m with fileDeleted := some true }

/-- `checkFileExistence`: skip messages without a truthy file url or
already flagged file-deleted; otherwise probe the object store (`fe`
injects the probe outcome) and on failure return the flagged message and
write it back. The result carries the returned message, whether a probe
happened, and the write-back payload when one was issued. -/
def checkFileExistence (fe : String → Bool) (m : Message) :
    Message × Bool × Option Message :=
  match truthyStr m.fileUrl with
  | none => (m, false, none)
  | some url =>
    if m.fileDeleted.getD false then (m, false, none)
    else if fe url then (m, true, none)
    else (updateMessageFileDeleted m, true, some (updateMessageFileDeleted m))

/-- `getMessages` maps every message of the chat through the
file-existence check. -/
def getMessages (fe : String → Bool) (msgs : List Message) :
    List (Message × Bool × Option Message) :=
  msgs.map (checkFileExistence fe)

end MessageService

/-- A `sendMessage` call of the sequential-execution model of claim C7:
all backend writes succeed and the database assigns `newId`. -/
structure SendOp where
  newId : String
  uid : String
  content : String
  ts : Nat
  file : Option FileInfo
  uploadUrl : String
  replyTo : Option String
deriving Repr, DecidableEq

/-- The message document a send operation stores: with a file the upload
url and file metadata are attached, without one they are absent. -/
def opMessage (op : SendOp) : Message :=
  match op.file with
  | some f =>
    MessageService.sentMessage op.newId op.content op.uid op.ts (some op.uploadUrl) (some f) op.replyTo
  | none => MessageService.sentMessage op.newId op.content op.uid op.ts none none op.replyTo

/-- Run one fully successful send against the chat state. -/
def runSend (op : SendOp) (st : ChatState) : ChatState :=
  (MessageService.sendMessage (some op.uid) true true op.newId op.uploadUrl
    op.content op.file op.ts op.replyTo st).2.1

/-- Run a sequence of fully successful sends strictly in order. -/
def runSends : List SendOp → ChatState → ChatState
  | [], st => st
  | op :: rest, st => runSends rest (runSend op st)

/-- A send is valid in a state when its fresh document id is unused and,
when it carries a truthy reply id, the parent message exists (otherwise the
reply-counter write would fail, contradicting the all-writes-succeed
hypothesis of claim C7). -/
def opValid (op : SendOp) (st : ChatState) : Bool :=
  st.msgs.all (fun m => decide (m.id ≠ some op.newId)) &&
  match truthyStr op.replyTo with
  | some r => st.msgs.any (fun m => decide (m.id = some r))
  | none => true

/-- Validity of a whole sequence of sends, each judged in the state the
previous ones produced. -/
def opsValid : List SendOp → ChatState → Bool
  | [], _ => true
  | op :: rest, st => opValid op st && opsValid rest (runSend op st)

/-- Number of messages whose reply-to id equals `i`. -/
def replyCount (msgs : List Message) (i : Option String) : Nat :=
  (msgs.filter (fun m2 => decide (m2.replyTo = i))).length

/-- The spec invariant of claim C7: every reply counter equals the number
of messages replying to that message. -/
def repliesInvariant (msgs : List Message) : Prop :=
  ∀ m ∈ msgs, m.replies.getD 0 = replyCount msgs m.id

/-- Strengthened induction invariant for claim C7: ids are assigned and
pairwise distinct, reply ids point at existing messages, and the reply
counters are correct. -/
def goodState (msgs : List Message) : Prop :=
  (∀ m ∈ msgs, m.id ≠ none) ∧
  (msgs.map (fun m => m.id)).Nodup ∧
  (∀ m ∈ msgs, ∀ r, m.replyTo = some r → ∃ p ∈ msgs, p.id = some r) ∧
  repliesInvariant msgs

/-- The slice of the `ChatComponent` fields the verified handlers read and
write. -/
structure ChatComponentState where
  newMessage : String
  selectedChatId : String
  currentUserId : Option String
  selectedFile : Option FileInfo
  fileUrl : Option String
  fileName : Option String
  editingMessage : Option Message
  editedMessageContent : String
deriving Repr, DecidableEq

/-- The whitespace class of the JS string trim operation. -/
def jsWhitespace : List Char :=
  [' ', '\t', '\n', '\r', '\u000B', '\u000C', '\u00A0', '\u1680', '\u2000',
   '\u2001', '\u2002', '\u2003', '\u2004', '\u2005', '\u2006', '\u2007',
   '\u2008', '\u2009', '\u200A', '\u2028', '\u2029', '\u202F', '\u205F',
   '\u3000', '\uFEFF']

/-- JS `String.prototype.trim`: strip whitespace from both ends. -/
def jsTrim (s : String) : String :=
  String.mk
    (((s.data.dropWhile (fun c => decide (c ∈ jsWhitespace))).reverse.dropWhile
        (fun c => decide (c ∈ jsWhitespace))).reverse)

/-- Concrete chats collection used by the witness of claim C3. -/
def sampleChats : List Chat :=
  [{ id := "c1", type := ChatType.single, participants := ["user1", "user2"],
     lastMessageTimestamp := 0 }]

/-- Concrete message with an attachment used by the witness of claim C5. -/
def fileSampleMessage : Message :=
  { content := "doc"
    senderId := "user1"
    timestamp := 0
    fileUrl := some "https://files/x" }

/-- Concrete parent message used by the send-pipeline witnesses. -/
def sampleParentMessage : Message :=
  { content := "parent"
    senderId := "user1"
    timestamp := 0
    id := some "m1" }

/-- Concrete chat state used by the send-pipeline witnesses. -/
def sampleChatState : ChatState :=
  { chatTimestamp := some 0
    msgs := [sampleParentMessage] }

/-- Concrete operation sequence used by the witness of claim C7: a first
message and a reply to it. -/
def sampleOps : List SendOp :=
  [{ newId := "m1", uid := "user1", content := "hello", ts := 0,
     file := none, uploadUrl := "", replyTo := none },
   { newId := "m2", uid := "user2", content := "hi", ts := 1,
     file := none, uploadUrl := "", replyTo := some "m1" }]

/-- Concrete component state used by the component-level witnesses. -/
def sampleComponentState : ChatComponentState :=
  { newMessage := "hi"
    selectedChatId := "chat1"
    currentUserId := some "user2"
    selectedFile := none
    fileUrl := none
    fileName := none
    editingMessage := none
    editedMessageContent := "" }

namespace ChatComponent

/-- `ChatComponent.updateMessage`: foreign messages are rejected before any
state change; otherwise, when an edit is in progress, editing mode ends and
the message is written back with the edited content and `deleted` false.
The second component is the Firestore update issued, if any. -/
def updateMessage (st : ChatComponentState) (m : Message) :
    ChatComponentState × Option (String × Message) :=
  if st.currentUserId ≠ some m.senderId then (st, none)
  else
    match st.editingMessage with
    | some _ =>
      ({ st with editingMessage := none },
       some (st.selectedChatId,
         { m with content := st.editedMessageContent, deleted := some false }))
    | none => (st, none)

/-- `ChatComponent.deleteFile`: foreign messages are rejected; otherwise,
with a truthy message id and chat id, the message is written back with
`fileDeleted` true. -/
def deleteFile (st : ChatComponentState) (m : Message) :
    ChatComponentState × Option (String × Message) :=
  if st.currentUserId ≠ some m.senderId then (st, none)
  else if (truthyStr m.id).isSome && decide (st.selectedChatId ≠ "") then
    (st, some (st.selectedChatId, { m with fileDeleted := some true }))
  else (st, none)

/-- `ChatComponent.openMessageDialog`: foreign messages are rejected;
otherwise the edit dialog opens on the message and chat id (the second
component). -/
def openMessageDialog (st : ChatComponentState) (m : Message) :
    ChatComponentState × Option (String × Message) :=
  if st.currentUserId ≠ some m.senderId then (st, none)
  else (st, some (st.selectedChatId, m))

/-- `ChatComponent.isMessageValid`: the composed text is non-empty after
trimming, or a file is selected. -/
def isMessageValid (st : ChatComponentState) : Bool :=
  decide (jsTrim st.newMessage ≠ "") || st.selectedFile.isSome

/-- `ChatComponent.resetMessageInput`. -/
def resetMessageInput (st : ChatComponentState) : ChatComponentState :=
  { st with newMessage := "", selectedFile := none, fileUrl := none, fileName := none }

/-- `ChatComponent.sendChatMessage`: forward the composed text and file to
the service (the second component); on success reset the input state, on
failure only log. `sendOk` injects the service promise outcome. -/
def sendChatMessage (sendOk : Bool) (st : ChatComponentState) :
    ChatComponentState × Option (String × String × Option FileInfo) :=
  if sendOk then
    (resetMessageInput st, some (st.selectedChatId, st.newMessage, st.selectedFile))
  else (st, some (st.selectedChatId, st.newMessage, st.selectedFile))

/-- `ChatComponent.sendMessage`: send only when the composed message is
valid. -/
def sendMessage (sendOk : Bool) (st : ChatComponentState) :
    ChatComponentState × Option (String × String × Option FileInfo) :=
  if isMessageValid st then sendChatMessage sendOk st else (st, none)

end ChatComponent

theorem rlookup_eq_none_iff (k : String) (rs : List (String × List String)) :
    rlookup k rs = none ↔ k ∉ rs.map Prod.fst := by
  induction rs with
  | nil => simp [rlookup]
  | cons p rest ih =>
    obtain ⟨k2, ids⟩ := p
    by_cases h : k2 = k
    · simp [rlookup, h, ih]
    · simp only [rlookup, h, if_false, ih, List.map_cons, List.mem_cons]
      tauto

theorem rlookup_reactionRemovePass_of_none (u k : String)
    (rs : List (String × List String)) (h : rlookup k rs = none) :
    rlookup k (reactionRemovePass u rs) = none := by
  induction rs with
  | nil => simpa [reactionRemovePass] using h
  | cons p rest ih =>
    obtain ⟨k2, ids⟩ := p
    by_cases hk : k2 = k
    · simp [rlookup, hk] at h
    · simp only [rlookup, hk, if_false] at h
      unfold reactionRemovePass
      by_cases hu : u ∈ ids
      · rw [if_pos hu]
        by_cases hemp : (ids.filter (fun i => decide (i ≠ u))).isEmpty = true
        · rw [if_pos hemp]; exact ih h
        · rw [if_neg hemp]
          simp only [rlookup, hk, if_false]
          exact ih h
      · rw [if_neg hu]
        simp only [rlookup, hk, if_false]
        exact ih h

theorem reactionRemovePass_keys_sublist (u : String) (rs : List (String × List String)) :
    List.Sublist ((reactionRemovePass u rs).map Prod.fst) (rs.map Prod.fst) := by
  induction rs with
  | nil => simp [reactionRemovePass]
  | cons p rest ih =>
    obtain ⟨k2, ids⟩ := p
    by_cases hu : u ∈ ids
    · by_cases hemp : (ids.filter (fun i => decide (i ≠ u))).isEmpty
      · simp only [reactionRemovePass, hu, if_true, hemp, List.map_cons]
        exact ih.trans (List.sublist_cons_self _ _)
      · simp only [reactionRemovePass, hu, if_true, hemp, if_false, List.map_cons]
        exact ih.cons₂ k2
    · simp only [reactionRemovePass, hu, if_false, List.map_cons]
      exact ih.cons₂ k2

theorem rlookup_reactionRemovePass (u k : String) (rs : List (String × List String))
    (hnd : (rs.map Prod.fst).Nodup) :
    rlookup k (reactionRemovePass u rs) = removeUserFromBucket u (rlookup k rs) := by
  induction rs with
  | nil => simp [reactionRemovePass, rlookup, removeUserFromBucket]
  | cons p rest ih =>
    obtain ⟨k2, ids⟩ := p
    simp only [List.map_cons, List.nodup_cons] at hnd
    obtain ⟨hk2, hrest⟩ := hnd
    unfold reactionRemovePass
    by_cases hk : k2 = k
    · subst hk
      have hnone : rlookup k2 rest = none := (rlookup_eq_none_iff k2 rest).2 hk2
      rw [show rlookup k2 ((k2, ids) :: rest) = some ids by simp [rlookup]]
      by_cases hu : u ∈ ids
      · rw [if_pos hu]
        by_cases hemp : (ids.filter (fun i => decide (i ≠ u))).isEmpty = true
        · rw [if_pos hemp, rlookup_reactionRemovePass_of_none u k2 rest hnone]
          rw [show removeUserFromBucket u (some ids) = none by
            simp only [removeUserFromBucket]; rw [if_pos hu, if_pos hemp]]
        · rw [if_neg hemp]
          rw [show removeUserFromBucket u (some ids) =
              some (ids.filter (fun i => decide (i ≠ u))) by
            simp only [removeUserFromBucket]; rw [if_pos hu, if_neg hemp]]
          simp [rlookup]
      · rw [if_neg hu]
        rw [show removeUserFromBucket u (some ids) = some ids by
          simp only [removeUserFromBucket]; rw [if_neg hu]]
        simp [rlookup]
    · rw [show rlookup k ((k2, ids) :: rest) = rlookup k rest by simp [rlookup, hk]]
      by_cases hu : u ∈ ids
      · rw [if_pos hu]
        by_cases hemp : (ids.filter (fun i => decide (i ≠ u))).isEmpty = true
        · rw [if_pos hemp]; exact ih hrest
        · rw [if_neg hemp]
          simp only [rlookup, hk, if_false]
          exact ih hrest
      · rw [if_neg hu]
        simp only [rlookup, hk, if_false]
        exact ih hrest

theorem rlookup_reactionAddPass (u e k : String) (rs : List (String × List String)) :
    rlookup k (reactionAddPass u e rs) =
      if k = e then some ((rlookup e rs).getD [] ++ [u]) else rlookup k rs := by
  induction rs with
  | nil =>
    by_cases hk : k = e
    · subst hk; simp [reactionAddPass, rlookup]
    · have : ¬ e = k := fun h => hk h.symm
      simp [reactionAddPass, rlookup, hk, this]
  | cons p rest ih =>
    obtain ⟨k2, ids⟩ := p
    by_cases he : k2 = e
    · subst he
      by_cases hk : k2 = k
      · subst hk
        simp [reactionAddPass, rlookup]
      · have hke : ¬ k = k2 := fun h => hk h.symm
        simp [reactionAddPass, rlookup, hk, hke]
    · by_cases hk : k2 = k
      · have hke : ¬ k = e := fun hh => he (hk.trans hh)
        simp [reactionAddPass, rlookup, he, hk, hke]
      · simp [reactionAddPass, rlookup, he, hk, ih]

theorem reactionAddPass_keys (u e : String) (rs : List (String × List String)) :
    (reactionAddPass u e rs).map Prod.fst =
      if e ∈ rs.map Prod.fst then rs.map Prod.fst else rs.map Prod.fst ++ [e] := by
  induction rs with
  | nil => simp [reactionAddPass]
  | cons p rest ih =>
    obtain ⟨k2, ids⟩ := p
    by_cases he : k2 = e
    · simp [reactionAddPass, he]
    · have hne : ¬ e = k2 := fun h => he h.symm
      by_cases hmem : e ∈ rest.map Prod.fst <;>
        simp [reactionAddPass, he, hne, hmem, ih]

theorem createReactionUpdate_keys_nodup (u e : String) (rs : List (String × List String))
    (hnd : (rs.map Prod.fst).Nodup) :
    ((reactionAddPass u e (reactionRemovePass u rs)).map Prod.fst).Nodup := by
  have hrem : ((reactionRemovePass u rs).map Prod.fst).Nodup :=
    hnd.sublist (reactionRemovePass_keys_sublist u rs)
  rw [reactionAddPass_keys]
  split
  · exact hrem
  · rename_i hmem
    simp [List.nodup_append, hrem, hmem]

/-- Lookup-level characterisation of the reaction update: the bucket of the
target emoji is its old bucket with the acting user removed and then
appended, every other bucket has the acting user removed (the bucket being
deleted when it becomes empty). -/
theorem createReactionUpdate_rlookup (u e : String) (rs : List (String × List String))
    (hnd : (rs.map Prod.fst).Nodup) (k : String) :
    rlookup k (reactionAddPass u e (reactionRemovePass u rs)) =
      if k = e then some ((removeUserFromBucket u (rlookup k rs)).getD [] ++ [u])
      else removeUserFromBucket u (rlookup k rs) := by
  rw [rlookup_reactionAddPass]
  by_cases hk : k = e
  · subst hk
    rw [rlookup_reactionRemovePass u k rs hnd]
  · simp only [hk, if_false]
    exact rlookup_reactionRemovePass u k rs hnd

theorem mem_of_rlookup_eq_some {k : String} {ids : List String}
    {rs : List (String × List String)} (h : rlookup k rs = some ids) : (k, ids) ∈ rs := by
  induction rs with
  | nil => simp [rlookup] at h
  | cons p rest ih =>
    obtain ⟨k2, ids2⟩ := p
    by_cases hk : k2 = k
    · subst hk
      have h2 : ids2 = ids := by simpa [rlookup] using h
      subst h2; exact List.mem_cons_self _ _
    · simp only [rlookup, hk, if_false] at h
      exact List.mem_cons_of_mem _ (ih h)

theorem rlookup_eq_some_of_mem {k : String} {ids : List String}
    {rs : List (String × List String)} (hnd : (rs.map Prod.fst).Nodup)
    (h : (k, ids) ∈ rs) : rlookup k rs = some ids := by
  induction rs with
  | nil => simp at h
  | cons p rest ih =>
    obtain ⟨k2, ids2⟩ := p
    simp only [List.map_cons, List.nodup_cons] at hnd
    rcases List.mem_cons.1 h with heq | hmem
    · have h1 : k2 = k := (Prod.mk.injEq .. ▸ heq.symm).1
      have h2 : ids2 = ids := (Prod.mk.injEq .. ▸ heq.symm).2
      simp [rlookup, h1, h2]
    · have hk : ¬ k2 = k := by
        intro hk; subst hk
        exact hnd.1 (by simpa using List.mem_map_of_mem Prod.fst hmem)
      simp only [rlookup, hk, if_false]
      exact ih hnd.2 hmem

theorem mem_removeUserFromBucket_getD {u v : String} (hv : v ≠ u)
    (o : Option (List String)) :
    v ∈ (removeUserFromBucket u o).getD [] ↔ v ∈ o.getD [] := by
  match o with
  | none => simp [removeUserFromBucket]
  | some ids =>
    by_cases hu : u ∈ ids
    · by_cases hemp : (ids.filter (fun i => decide (i ≠ u))).isEmpty = true
      · rw [show removeUserFromBucket u (some ids) = none by
          simp only [removeUserFromBucket]; rw [if_pos hu, if_pos hemp]]
        rw [List.isEmpty_iff, List.filter_eq_nil_iff] at hemp
        simp only [Option.getD_none, Option.getD_some, List.not_mem_nil, false_iff]
        intro hvmem
        exact hv (by simpa using hemp v hvmem)
      · rw [show removeUserFromBucket u (some ids) =
            some (ids.filter (fun i => decide (i ≠ u))) by
          simp only [removeUserFromBucket]; rw [if_pos hu, if_neg hemp]]
        simp [List.mem_filter, hv]
    · rw [show removeUserFromBucket u (some ids) = some ids by
        simp only [removeUserFromBucket]; rw [if_neg hu]]

theorem not_mem_removeUserFromBucket_getD (u : String) (o : Option (List String)) :
    u ∉ (removeUserFromBucket u o).getD [] := by
  match o with
  | none => simp [removeUserFromBucket]
  | some ids =>
    by_cases hu : u ∈ ids
    · by_cases hemp : (ids.filter (fun i => decide (i ≠ u))).isEmpty = true
      · rw [show removeUserFromBucket u (some ids) = none by
          simp only [removeUserFromBucket]; rw [if_pos hu, if_pos hemp]]
        simp
      · rw [show removeUserFromBucket u (some ids) =
            some (ids.filter (fun i => decide (i ≠ u))) by
          simp only [removeUserFromBucket]; rw [if_pos hu, if_neg hemp]]
        simp [List.mem_filter]
    · rw [show removeUserFromBucket u (some ids) = some ids by
        simp only [removeUserFromBucket]; rw [if_neg hu]]
      simpa using hu

/-- Membership of a user other than the acting one is untouched by the
reaction update. -/
theorem userInBucket_update_of_ne {u v : String} (e : String)
    (rs : List (String × List String)) (hnd : (rs.map Prod.fst).Nodup)
    (hv : v ≠ u) (k : String) :
    userInBucket v k (reactionAddPass u e (reactionRemovePass u rs)) =
      userInBucket v k rs := by
  unfold userInBucket
  rw [createReactionUpdate_rlookup u e rs hnd k]
  by_cases hk : k = e
  · subst hk
    rw [if_pos rfl, decide_eq_decide]
    simp only [Option.getD_some, List.mem_append, List.mem_singleton]
    constructor
    · rintro (hmem | hvu)
      · exact (mem_removeUserFromBucket_getD hv (rlookup k rs)).1 hmem
      · exact absurd hvu hv
    · intro hmem
      exact Or.inl ((mem_removeUserFromBucket_getD hv (rlookup k rs)).2 hmem)
  · rw [if_neg hk, decide_eq_decide]
    exact mem_removeUserFromBucket_getD hv (rlookup k rs)

/-- After the reaction update the acting user sits in the target bucket and
in no other bucket. -/
theorem userInBucket_update_self (u e : String)
    (rs : List (String × List String)) (hnd : (rs.map Prod.fst).Nodup)
    (k : String) :
    userInBucket u k (reactionAddPass u e (reactionRemovePass u rs)) = true ↔ k = e := by
  unfold userInBucket
  rw [createReactionUpdate_rlookup u e rs hnd k]
  by_cases hk : k = e
  · simp [hk]
  · simp only [hk, if_false, decide_eq_true_eq, iff_false]
    exact not_mem_removeUserFromBucket_getD u (rlookup k rs)

theorem userInBucket_exists_of_true {v k : String} {rs : List (String × List String)}
    (h : userInBucket v k rs = true) : ∃ ids, rlookup k rs = some ids ∧ v ∈ ids := by
  unfold userInBucket at h
  match hlk : rlookup k rs with
  | none => rw [hlk] at h; simp at h
  | some ids => rw [hlk] at h; exact ⟨ids, rfl, by simpa using h⟩

/-- Claim C1: for every message with reactions map `R`, acting user `u` and
target emoji `e`, `createReactionUpdate` returns a message whose reactions
map equals `R` with `u` removed from every emoji bucket that contained `u`
(a bucket whose user list becomes empty being deleted), and then with `u`
appended to the bucket for `e` (created as `[u]` when absent); the
membership of every user other than `u` is unchanged in every bucket. -/
theorem claim_C1_createReactionUpdate (m : Message) (u e : String)
    (hnd : ((m.reactions.getD []).map Prod.fst).Nodup) :
    (∀ k, rlookup k ((ChatComponent.createReactionUpdate u e m).reactions.getD []) =
        if k = e then
          some ((removeUserFromBucket u (rlookup k (m.reactions.getD []))).getD [] ++ [u])
        else removeUserFromBucket u (rlookup k (m.reactions.getD [])))
    ∧ (∀ v k, v ≠ u →
        userInBucket v k ((ChatComponent.createReactionUpdate u e m).reactions.getD []) =
          userInBucket v k (m.reactions.getD []))
    ∧ (∀ k, userInBucket u k ((ChatComponent.createReactionUpdate u e m).reactions.getD [])
          = true ↔ k = e) := by
  have hred : (ChatComponent.createReactionUpdate u e m).reactions.getD [] =
      reactionAddPass u e (reactionRemovePass u (m.reactions.getD [])) := rfl
  refine ⟨fun k => ?_, fun v k hv => ?_, fun k => ?_⟩
  · rw [hred]; exact createReactionUpdate_rlookup u e _ hnd k
  · rw [hred]; exact userInBucket_update_of_ne e _ hnd hv k
  · rw [hred]; exact userInBucket_update_self u e _ hnd k

/-- Witness for claim C1 at a concrete message. -/
theorem claim_C1_createReactionUpdate_witness :
    userInBucket "user1" "heart"
        ((ChatComponent.createReactionUpdate "user1" "heart" reactionSampleMessage).reactions.getD [])
      = true ↔ "heart" = "heart" :=
  (claim_C1_createReactionUpdate reactionSampleMessage "user1" "heart" (by decide)).2.2 "heart"

/-- Claim C2: a reactions map in which every user occurs in at most one
bucket keeps that property under `createReactionUpdate`, and the acting
user ends up in exactly the bucket of the target emoji. -/
theorem claim_C2_reaction_invariant (m : Message) (u e : String)
    (hnd : ((m.reactions.getD []).map Prod.fst).Nodup)
    (hinv : atMostOnePerUser (m.reactions.getD [])) :
    atMostOnePerUser ((ChatComponent.createReactionUpdate u e m).reactions.getD [])
    ∧ userInBucket u e ((ChatComponent.createReactionUpdate u e m).reactions.getD []) = true
    ∧ (∀ k, userInBucket u k ((ChatComponent.createReactionUpdate u e m).reactions.getD [])
          = true → k = e) := by
  have hred : (ChatComponent.createReactionUpdate u e m).reactions.getD [] =
      reactionAddPass u e (reactionRemovePass u (m.reactions.getD [])) := rfl
  have hnd2 : (((ChatComponent.createReactionUpdate u e m).reactions.getD []).map Prod.fst).Nodup := by
    rw [hred]; exact createReactionUpdate_keys_nodup u e _ hnd
  refine ⟨?_, ?_, ?_⟩
  · rintro ⟨k1, ids1⟩ h1 ⟨k2, ids2⟩ h2 v hv1 hv2
    have l1 : rlookup k1 ((ChatComponent.createReactionUpdate u e m).reactions.getD [])
        = some ids1 := rlookup_eq_some_of_mem hnd2 h1
    have l2 : rlookup k2 ((ChatComponent.createReactionUpdate u e m).reactions.getD [])
        = some ids2 := rlookup_eq_some_of_mem hnd2 h2
    have u1 : userInBucket v k1 ((ChatComponent.createReactionUpdate u e m).reactions.getD [])
        = true := by unfold userInBucket; rw [l1]; simpa using hv1
    have u2 : userInBucket v k2 ((ChatComponent.createReactionUpdate u e m).reactions.getD [])
        = true := by unfold userInBucket; rw [l2]; simpa using hv2
    by_cases hvu : v = u
    · subst hvu
      have e1 : k1 = e := by
        have := userInBucket_update_self v e (m.reactions.getD []) hnd k1
        rw [← hred] at this
        exact this.1 u1
      have e2 : k2 = e := by
        have := userInBucket_update_self v e (m.reactions.getD []) hnd k2
        rw [← hred] at this
        exact this.1 u2
      simpa [e2] using e1
    · have w1 : userInBucket v k1 (m.reactions.getD []) = true := by
        have := userInBucket_update_of_ne e (m.reactions.getD []) hnd hvu k1
        rw [← hred] at this
        rw [← this]; exact u1
      have w2 : userInBucket v k2 (m.reactions.getD []) = true := by
        have := userInBucket_update_of_ne e (m.reactions.getD []) hnd hvu k2
        rw [← hred] at this
        rw [← this]; exact u2
      obtain ⟨jds1, hl1, hm1⟩ := userInBucket_exists_of_true w1
      obtain ⟨jds2, hl2, hm2⟩ := userInBucket_exists_of_true w2
      exact hinv (k1, jds1) (mem_of_rlookup_eq_some hl1)
        (k2, jds2) (mem_of_rlookup_eq_some hl2) v hm1 hm2
  · have := userInBucket_update_self u e (m.reactions.getD []) hnd e
    rw [← hred] at this
    exact this.2 rfl
  · intro k hk
    have := userInBucket_update_self u e (m.reactions.getD []) hnd k
    rw [← hred] at this
    exact this.1 hk

/-- Witness for claim C2 at a concrete message. -/
theorem claim_C2_reaction_invariant_witness :
    userInBucket "user1" "heart"
        ((ChatComponent.createReactionUpdate "user1" "heart" reactionSampleMessage).reactions.getD [])
      = true :=
  (claim_C2_reaction_invariant reactionSampleMessage "user1" "heart"
    (by decide) (by decide)).2.1

theorem replaceNewlineChars_eq_flatMap (cs : List Char) :
    replaceNewlineChars cs
      = cs.flatMap (fun ch => if ch = '\n' then ['<', 'b', 'r', '>'] else [ch]) := by
  induction cs with
  | nil => rfl
  | cons c rest ih =>
    by_cases hc : c = '\n' <;> simp [replaceNewlineChars, hc, ih]

/-- Claim C6: the message document written by a send has content equal to
the input with every newline character replaced by the br tag and no other
character altered, the sender id of the current user, and `fileDeleted`
and `deleted` initialised to false. -/
theorem claim_C6_createMessageData (c uid : String) (ts : Nat)
    (fu : Option String) (f : Option FileInfo) (rt : Option String) :
    (MessageService.createMessageData c uid ts fu f rt).content.data
        = c.data.flatMap (fun ch => if ch = '\n' then ['<', 'b', 'r', '>'] else [ch])
    ∧ (MessageService.createMessageData c uid ts fu f rt).senderId = uid
    ∧ (MessageService.createMessageData c uid ts fu f rt).fileDeleted = some false
    ∧ (MessageService.createMessageData c uid ts fu f rt).deleted = some false := by
  refine ⟨?_, rfl, rfl, rfl⟩
  show replaceNewlineChars c.data = _
  exact replaceNewlineChars_eq_flatMap c.data

/-- Claim C3: creating a single chat first runs the dedup query on the
sorted participant pair, reuses the first match without adding a document,
and only adds a new single chat with the sorted participants when the
query is empty; creating a group chat always adds a new document. -/
theorem claim_C3_createChat (newId : String) (now : Nat) (ps : List String)
    (name : Option String) (isPublic : Option Bool) (chats : List Chat) :
    (∀ c rest, MessageService.singleChatQuery ps chats = c :: rest →
        MessageService.createChat newId now ChatType.single ps name isPublic chats
          = (c.id, chats))
    ∧ (MessageService.singleChatQuery ps chats = [] →
        MessageService.createChat newId now ChatType.single ps name isPublic chats
          = (newId, chats ++
              [{ id := newId, type := ChatType.single,
                 participants := MessageService.sortParticipants ps,
                 name := truthyStr name, isPublic := isPublic,
                 lastMessageTimestamp := now }]))
    ∧ MessageService.createChat newId now ChatType.group ps name isPublic chats
        = (newId, chats ++
            [{ id := newId, type := ChatType.group, participants := ps,
               name := truthyStr name, isPublic := isPublic,
               lastMessageTimestamp := now }]) := by
  refine ⟨?_, ?_, rfl⟩
  · intro c rest h
    simp [MessageService.createChat, MessageService.createSingleChat, h]
  · intro h
    simp [MessageService.createChat, MessageService.createSingleChat, h,
      MessageService.addNewChat]

/-- Witness for claim C3: the existing single chat is reused. -/
theorem claim_C3_createChat_witness :
    MessageService.createChat "new1" 5 ChatType.single ["user2", "user1"] none none sampleChats
      = ("c1", sampleChats) :=
  (claim_C3_createChat "new1" 5 ["user2", "user1"] none none sampleChats).1
    { id := "c1", type := ChatType.single, participants := ["user1", "user2"],
      lastMessageTimestamp := 0 } [] (by decide)

/-- Claim C8: when the current value of the auth user observable is null,
`sendMessage` rejects with the no-user error, and the store is returned
unchanged: no message document is added, no chat timestamp is updated, no
reply counter is incremented, and nothing is logged. -/
theorem claim_C8_sendMessage_no_user (addOk replyWriteOk : Bool)
    (newId uploadUrl content : String) (file : Option FileInfo) (ts : Nat)
    (replyTo : Option String) (st : ChatState) :
    MessageService.sendMessage none addOk replyWriteOk newId uploadUrl content file ts replyTo st
      = (Except.error "No user found", st, []) := rfl

/-- Claim C5: `getMessages` runs every message through the file-existence
check; a message without a truthy file url or already flagged file-deleted
is returned unchanged and never probed; an existing file leaves the
message unchanged; a failed probe returns the message flagged file-deleted
and writes that flag back to the document. -/
theorem claim_C5_checkFileExistence (fe : String → Bool) (m : Message) :
    (∀ msgs : List Message,
        MessageService.getMessages fe msgs = msgs.map (MessageService.checkFileExistence fe))
    ∧ (truthyStr m.fileUrl = none ∨ m.fileDeleted = some true →
        MessageService.checkFileExistence fe m = (m, false, none))
    ∧ (∀ url, truthyStr m.fileUrl = some url → m.fileDeleted ≠ some true → fe url = true →
        MessageService.checkFileExistence fe m = (m, true, none))
    ∧ (∀ url, truthyStr m.fileUrl = some url → m.fileDeleted ≠ some true → fe url = false →
        MessageService.checkFileExistence fe m =
          (MessageService.updateMessageFileDeleted m, true,
           some (MessageService.updateMessageFileDeleted m))) := by
  have hdel : ∀ b : Option Bool, b ≠ some true → b.getD false = false := by
    intro b hb
    match b with
    | none => rfl
    | some true => exact absurd rfl hb
    | some false => rfl
  refine ⟨fun _ => rfl, ?_, ?_, ?_⟩
  · rintro (h | h)
    · simp [MessageService.checkFileExistence, h]
    · match hurl : truthyStr m.fileUrl with
      | none => simp [MessageService.checkFileExistence, hurl]
      | some url => simp [MessageService.checkFileExistence, hurl, h]
  · intro url hurl hdel2 hfe
    simp [MessageService.checkFileExistence, hurl, hdel m.fileDeleted hdel2, hfe]
  · intro url hurl hdel2 hfe
    simp [MessageService.checkFileExistence, hurl, hdel m.fileDeleted hdel2, hfe]

/-- Witness for claim C5: a failed probe flags and writes back. -/
theorem claim_C5_checkFileExistence_witness :
    MessageService.checkFileExistence (fun _ => false) fileSampleMessage
      = (MessageService.updateMessageFileDeleted fileSampleMessage, true,
         some (MessageService.updateMessageFileDeleted fileSampleMessage)) :=
  (claim_C5_checkFileExistence (fun _ => false) fileSampleMessage).2.2.2
    "https://files/x" (by decide) (by decide) rfl

/-- Claim C9: for a message whose sender differs from the current user,
`updateMessage`, `deleteFile` and `openMessageDialog` return without
issuing any Firestore update or opening the dialog, and the component
state is unchanged. -/
theorem claim_C9_owner_guard (st : ChatComponentState) (m : Message)
    (h : st.currentUserId ≠ some m.senderId) :
    ChatComponent.updateMessage st m = (st, none)
    ∧ ChatComponent.deleteFile st m = (st, none)
    ∧ ChatComponent.openMessageDialog st m = (st, none) := by
  refine ⟨?_, ?_, ?_⟩ <;>
    simp [ChatComponent.updateMessage, ChatComponent.deleteFile,
      ChatComponent.openMessageDialog, h]

/-- Witness for claim C9 at a concrete state and foreign message. -/
theorem claim_C9_owner_guard_witness :
    ChatComponent.updateMessage sampleComponentState reactionSampleMessage
      = (sampleComponentState, none)
    ∧ ChatComponent.deleteFile sampleComponentState reactionSampleMessage
      = (sampleComponentState, none)
    ∧ ChatComponent.openMessageDialog sampleComponentState reactionSampleMessage
      = (sampleComponentState, none) :=
  claim_C9_owner_guard sampleComponentState reactionSampleMessage (by decide)

/-- Claim C10: the component forwards a send exactly when the composed
text is non-empty after trimming or a file is selected; with
whitespace-only text and no file nothing happens; a successful send resets
the composed text and the file selection. -/
theorem claim_C10_component_sendMessage (sendOk : Bool) (st : ChatComponentState) :
    ((ChatComponent.sendMessage sendOk st).2.isSome = true ↔
      (jsTrim st.newMessage ≠ "" ∨ st.selectedFile.isSome = true))
    ∧ (jsTrim st.newMessage = "" → st.selectedFile = none →
        ChatComponent.sendMessage sendOk st = (st, none))
    ∧ (sendOk = true → ChatComponent.isMessageValid st = true →
        (ChatComponent.sendMessage sendOk st).1.newMessage = ""
        ∧ (ChatComponent.sendMessage sendOk st).1.selectedFile = none) := by
  have hiff : ChatComponent.isMessageValid st = true ↔
      (jsTrim st.newMessage ≠ "" ∨ st.selectedFile.isSome = true) := by
    simp [ChatComponent.isMessageValid]
  refine ⟨?_, ?_, ?_⟩
  · constructor
    · intro h
      by_cases hv : ChatComponent.isMessageValid st = true
      · exact hiff.1 hv
      · exfalso
        simp only [Bool.not_eq_true] at hv
        simp [ChatComponent.sendMessage, hv] at h
    · intro h
      have hv := hiff.2 h
      cases sendOk <;>
        simp [ChatComponent.sendMessage, hv, ChatComponent.sendChatMessage]
  · intro h1 h2
    have hb : ChatComponent.isMessageValid st = false := by
      simp [ChatComponent.isMessageValid, h1, h2]
    simp [ChatComponent.sendMessage, hb]
  · intro hs hv
    subst hs
    simp [ChatComponent.sendMessage, hv, ChatComponent.sendChatMessage,
      ChatComponent.resetMessageInput]

theorem updateLastMessageTimestamp_msgs (ts : Nat) (st : ChatState) :
    (MessageService.updateLastMessageTimestamp ts st).1.msgs = st.msgs := by
  cases h : st.chatTimestamp <;>
    simp [MessageService.updateLastMessageTimestamp, h]

/-- Evaluation of a successful message add that carries a truthy reply id:
the message document is appended, the chat timestamp update runs, and the
reply-counter update runs on the extended collection; the promise resolves
with the new document id. -/
theorem addMessageToFirestore_eval (replyWriteOk : Bool) (newId content uid : String)
    (ts : Nat) (fileUrl : Option String) (file : Option FileInfo) (r : String)
    (st : ChatState) (hr : r ≠ "") :
    MessageService.addMessageToFirestore true replyWriteOk newId content uid ts fileUrl file
        (some r) st
      = (Except.ok newId,
         { (MessageService.updateLastMessageTimestamp ts
              { st with msgs :=
                  st.msgs ++ [MessageService.sentMessage newId content uid ts fileUrl file (some r)] }).1
            with msgs := (MessageService.updateReplyCount replyWriteOk r
              (st.msgs ++ [MessageService.sentMessage newId content uid ts fileUrl file (some r)])).2.1 },
         (MessageService.updateLastMessageTimestamp ts
              { st with msgs :=
                  st.msgs ++ [MessageService.sentMessage newId content uid ts fileUrl file (some r)] }).2
           ++ (MessageService.updateReplyCount replyWriteOk r
              (st.msgs ++ [MessageService.sentMessage newId content uid ts fileUrl file (some r)])).2.2) := by
  have hm := updateLastMessageTimestamp_msgs ts
    { st with msgs := st.msgs ++ [MessageService.sentMessage newId content uid ts fileUrl file (some r)] }
  simp [MessageService.addMessageToFirestore, truthyStr, hr, hm]

/-- Claim C4: a successful send carrying a reply id resolves with the new
document reference; when the parent is found the stored reply counter
becomes its previous value plus one (a missing field counting as zero);
when the parent is missing or the secondary write rejects, the messages
end up exactly extended by the new document, something is logged, and the
send still resolves. -/
theorem claim_C4_reply_bookkeeping (replyWriteOk : Bool) (newId content uid : String)
    (ts : Nat) (fileUrl : Option String) (file : Option FileInfo) (r : String)
    (st : ChatState) (hr : r ≠ "") :
    ((MessageService.addMessageToFirestore true replyWriteOk newId content uid ts fileUrl file
        (some r) st).1 = Except.ok newId)
    ∧ (∀ p, (st.msgs ++ [MessageService.sentMessage newId content uid ts fileUrl file (some r)]).find?
          (fun m => decide (m.id = some r)) = some p →
        replyWriteOk = true →
        (MessageService.addMessageToFirestore true replyWriteOk newId content uid ts fileUrl file
            (some r) st).2.1.msgs
          = (st.msgs ++ [MessageService.sentMessage newId content uid ts fileUrl file (some r)]).map
              (fun m2 => if m2.id = some r
                then { m2 with replies := some (p.replies.getD 0 + 1) } else m2))
    ∧ ((st.msgs ++ [MessageService.sentMessage newId content uid ts fileUrl file (some r)]).find?
          (fun m => decide (m.id = some r)) = none ∨ replyWriteOk = false →
        (MessageService.addMessageToFirestore true replyWriteOk newId content uid ts fileUrl file
            (some r) st).2.1.msgs
          = st.msgs ++ [MessageService.sentMessage newId content uid ts fileUrl file (some r)]
        ∧ (MessageService.addMessageToFirestore true replyWriteOk newId content uid ts fileUrl file
            (some r) st).2.2 ≠ []) := by
  rw [addMessageToFirestore_eval replyWriteOk newId content uid ts fileUrl file r st hr]
  refine ⟨rfl, ?_, ?_⟩
  · intro p hfind hw
    subst hw
    simp [MessageService.updateReplyCount, hfind]
  · rintro (hnone | hwf)
    · constructor
      · simp [MessageService.updateReplyCount, hnone]
      · simp [MessageService.updateReplyCount, hnone]
    · subst hwf
      match hfind : (st.msgs ++ [MessageService.sentMessage newId content uid ts fileUrl file
          (some r)]).find? (fun m => decide (m.id = some r)) with
      | some p =>
        constructor
        · simp [MessageService.updateReplyCount, hfind]
        · simp [MessageService.updateReplyCount, hfind]
      | none =>
        constructor
        · simp [MessageService.updateReplyCount, hfind]
        · simp [MessageService.updateReplyCount, hfind]

/-- Witness for claim C4: replying to the sample parent increments its
stored counter to one. -/
theorem claim_C4_reply_bookkeeping_witness :
    (MessageService.addMessageToFirestore true true "m2" "re" "user2" 1 none none
        (some "m1") sampleChatState).2.1.msgs
      = (sampleChatState.msgs ++
          [MessageService.sentMessage "m2" "re" "user2" 1 none none (some "m1")]).map
          (fun m2 => if m2.id = some "m1"
            then { m2 with replies := some (sampleParentMessage.replies.getD 0 + 1) } else m2) :=
  (claim_C4_reply_bookkeeping true "m2" "re" "user2" 1 none none "m1" sampleChatState
    (by decide)).2.1 sampleParentMessage (by decide) rfl

theorem truthyStr_eq_some {x : Option String} {r : String} (h : truthyStr x = some r) :
    x = some r ∧ r ≠ "" := by
  match x with
  | none => simp [truthyStr] at h
  | some s =>
    by_cases hs : s = ""
    · simp [truthyStr, hs] at h
    · simp only [truthyStr, hs, if_false, Option.some.injEq] at h
      subst h
      exact ⟨rfl, hs⟩

theorem opMessage_id (op : SendOp) : (opMessage op).id = some op.newId := by
  cases hf : op.file <;> simp [opMessage, hf, MessageService.sentMessage]

theorem opMessage_replies (op : SendOp) : (opMessage op).replies = none := by
  cases hf : op.file <;>
    simp [opMessage, hf, MessageService.sentMessage, MessageService.createMessageData]

theorem opMessage_replyTo (op : SendOp) : (opMessage op).replyTo = truthyStr op.replyTo := by
  cases hf : op.file <;>
    simp [opMessage, hf, MessageService.sentMessage, MessageService.createMessageData]

/-- The message list a fully successful send produces: the new document is
appended, then, with a truthy reply id, the reply-counter update runs on
the extended collection. -/
theorem runSend_msgs (op : SendOp) (st : ChatState) :
    (runSend op st).msgs =
      match truthyStr op.replyTo with
      | some r => (MessageService.updateReplyCount true r (st.msgs ++ [opMessage op])).2.1
      | none => st.msgs ++ [opMessage op] := by
  cases hf : op.file with
  | none =>
    cases ht : truthyStr op.replyTo with
    | none =>
      simp [runSend, MessageService.sendMessage, MessageService.handleSendMessage,
        MessageService.handleMessageData, hf, MessageService.addMessageToFirestore, ht,
        opMessage, updateLastMessageTimestamp_msgs]
    | some r =>
      simp [runSend, MessageService.sendMessage, MessageService.handleSendMessage,
        MessageService.handleMessageData, hf, MessageService.addMessageToFirestore, ht,
        opMessage, updateLastMessageTimestamp_msgs]
  | some f =>
    cases ht : truthyStr op.replyTo with
    | none =>
      simp [runSend, MessageService.sendMessage, MessageService.handleSendMessage,
        MessageService.handleMessageData, hf, MessageService.addMessageToFirestore, ht,
        opMessage, updateLastMessageTimestamp_msgs]
    | some r =>
      simp [runSend, MessageService.sendMessage, MessageService.handleSendMessage,
        MessageService.handleMessageData, hf, MessageService.addMessageToFirestore, ht,
        opMessage, updateLastMessageTimestamp_msgs]

theorem replyCount_append (xs : List Message) (y : Message) (i : Option String) :
    replyCount (xs ++ [y]) i
      = replyCount xs i + (if y.replyTo = i then 1 else 0) := by
  by_cases hy : y.replyTo = i <;> simp [replyCount, List.filter_append, hy]

theorem replyCount_eq_zero (msgs : List Message) (i : Option String)
    (h : ∀ m ∈ msgs, m.replyTo ≠ i) : replyCount msgs i = 0 := by
  unfold replyCount
  rw [List.length_eq_zero, List.filter_eq_nil_iff]
  intro m hm
  simpa using h m hm

theorem replyCount_map_of_replyTo_preserved (msgs : List Message)
    (f : Message → Message) (hf : ∀ m, (f m).replyTo = m.replyTo) (i : Option String) :
    replyCount (msgs.map f) i = replyCount msgs i := by
  induction msgs with
  | nil => rfl
  | cons m rest ih =>
    by_cases hm : m.replyTo = i
    · simp [replyCount, hf, hm] at ih ⊢
      exact ih
    · simp [replyCount, hf, hm] at ih ⊢
      exact ih

/-- One valid, fully successful send preserves the strengthened claim C7
invariant. -/
theorem goodState_step (op : SendOp) (st : ChatState)
    (hv : opValid op st = true) (hg : goodState st.msgs) :
    goodState (runSend op st).msgs := by
  obtain ⟨hids, hnd, hclosed, hinv⟩ := hg
  rw [runSend_msgs]
  have hvand := hv
  unfold opValid at hvand
  rw [Bool.and_eq_true] at hvand
  obtain ⟨hfresh0, hrep0⟩ := hvand
  have hfresh : ∀ m ∈ st.msgs, m.id ≠ some op.newId := by
    intro m hm
    simpa using List.all_eq_true.1 hfresh0 m hm
  have hmid := opMessage_id op
  have hmreplies := opMessage_replies op
  have hmreplyTo := opMessage_replyTo op
  have hids1 : ∀ m ∈ st.msgs ++ [opMessage op], m.id ≠ none := by
    intro m hm
    rcases List.mem_append.1 hm with h | h
    · exact hids m h
    · rw [List.mem_singleton.1 h, hmid]; simp
  have hnd1 : ((st.msgs ++ [opMessage op]).map (fun m => m.id)).Nodup := by
    rw [List.map_append, List.nodup_append]
    refine ⟨hnd, by simp, ?_⟩
    intro x hx hx2
    simp only [List.map_cons, List.map_nil, List.mem_singleton, hmid] at hx2
    obtain ⟨m, hm, hmx⟩ := List.mem_map.1 hx
    exact hfresh m hm (by rw [hmx, hx2])
  have hclosed1 : ∀ m ∈ st.msgs ++ [opMessage op], ∀ r2, m.replyTo = some r2 →
      ∃ p ∈ st.msgs ++ [opMessage op], p.id = some r2 := by
    intro m hm r2 hr2
    rcases List.mem_append.1 hm with h | h
    · obtain ⟨p, hp, hpid⟩ := hclosed m h r2 hr2
      exact ⟨p, List.mem_append_left _ hp, hpid⟩
    · rw [List.mem_singleton.1 h, hmreplyTo] at hr2
      rw [hr2] at hrep0
      obtain ⟨p, hp, hpid⟩ := List.any_eq_true.1 hrep0
      exact ⟨p, List.mem_append_left _ hp, by simpa using hpid⟩
  have hcount0 : replyCount st.msgs (some op.newId) = 0 := by
    apply replyCount_eq_zero
    intro m2 hm2 hcon
    obtain ⟨p, hp, hpid⟩ := hclosed m2 hm2 op.newId hcon
    exact hfresh p hp hpid
  cases ht : truthyStr op.replyTo with
  | none =>
    simp only [ht]
    refine ⟨hids1, hnd1, hclosed1, ?_⟩
    intro m hm
    rcases List.mem_append.1 hm with h | h
    · rw [replyCount_append]
      have hne : ¬ (opMessage op).replyTo = m.id := by
        rw [hmreplyTo, ht]
        intro hcon
        exact hids m h hcon.symm
      rw [if_neg hne, Nat.add_zero]
      exact hinv m h
    · have hme := List.mem_singleton.1 h
      subst hme
      rw [hmreplies, hmid, replyCount_append, hcount0]
      have hne : ¬ (opMessage op).replyTo = some op.newId := by
        rw [hmreplyTo, ht]; simp
      rw [if_neg hne]
      rfl
  | some r =>
    simp only [ht]
    rw [ht] at hrep0
    obtain ⟨p0, hp0, hp0id0⟩ := List.any_eq_true.1 hrep0
    have hp0id : p0.id = some r := by simpa using hp0id0
    have hrnew : r ≠ op.newId := by
      intro hcon
      exact hfresh p0 hp0 (by rw [hp0id, hcon])
    have hfs : ((st.msgs ++ [opMessage op]).find? (fun m => decide (m.id = some r))).isSome
        = true := by
      rw [List.find?_isSome]
      exact ⟨p0, List.mem_append_left _ hp0, by simpa using hp0id⟩
    obtain ⟨p, hfind⟩ := Option.isSome_iff_exists.1 hfs
    have hpin : p ∈ st.msgs ++ [opMessage op] := List.mem_of_find?_eq_some hfind
    have hpid : p.id = some r := by simpa using List.find?_some hfind
    have hpin2 : p ∈ st.msgs := by
      rcases List.mem_append.1 hpin with h | h
      · exact h
      · exfalso
        rw [List.mem_singleton.1 h, hmid] at hpid
        have : op.newId = r := by simpa using hpid
        exact hrnew this.symm
    have hupd : MessageService.updateReplyCount true r (st.msgs ++ [opMessage op])
        = (Except.ok (),
           (st.msgs ++ [opMessage op]).map (fun m2 =>
             if m2.id = some r then { m2 with replies := some (p.replies.getD 0 + 1) } else m2),
           []) := by
      simp [MessageService.updateReplyCount, hfind]
    rw [hupd]
    have hfid : ∀ m2 : Message,
        ((fun m2 => if m2.id = some r
            then { m2 with replies := some (p.replies.getD 0 + 1) } else m2) m2).id
          = m2.id := by
      intro m2
      by_cases hc : m2.id = some r <;> simp [hc]
    have hfrt : ∀ m2 : Message,
        ((fun m2 => if m2.id = some r
            then { m2 with replies := some (p.replies.getD 0 + 1) } else m2) m2).replyTo
          = m2.replyTo := by
      intro m2
      by_cases hc : m2.id = some r <;> simp [hc]
    have hmapids : ((st.msgs ++ [opMessage op]).map (fun m2 =>
          if m2.id = some r then { m2 with replies := some (p.replies.getD 0 + 1) } else m2)).map
            (fun m => m.id)
        = (st.msgs ++ [opMessage op]).map (fun m => m.id) := by
      rw [List.map_map]
      exact List.map_congr_left (fun a _ => hfid a)
    refine ⟨?_, ?_, ?_, ?_⟩
    · intro m' hm'
      obtain ⟨m2, hm2, hm2e⟩ := List.mem_map.1 hm'
      rw [← hm2e, hfid m2]
      exact hids1 m2 hm2
    · rw [hmapids]; exact hnd1
    · intro m' hm' r2 hr2
      obtain ⟨m2, hm2, hm2e⟩ := List.mem_map.1 hm'
      rw [← hm2e, hfrt m2] at hr2
      obtain ⟨p2, hp2, hp2id⟩ := hclosed1 m2 hm2 r2 hr2
      refine ⟨(fun m2 => if m2.id = some r
          then { m2 with replies := some (p.replies.getD 0 + 1) } else m2) p2,
        List.mem_map_of_mem _ hp2, ?_⟩
      rw [hfid p2]
      exact hp2id
    · intro m' hm'
      obtain ⟨m2, hm2, hm2e⟩ := List.mem_map.1 hm'
      rw [← hm2e, hfid m2,
        replyCount_map_of_replyTo_preserved _ _ hfrt]
      by_cases hc : m2.id = some r
      · have hm2p : m2 = p := List.inj_on_of_nodup_map hnd1 hm2 hpin (by rw [hc, hpid])
        subst hm2p
        rw [show (if m2.id = some r
            then { m2 with replies := some (m2.replies.getD 0 + 1) } else m2)
          = { m2 with replies := some (m2.replies.getD 0 + 1) } from if_pos hc]
        rw [hc, replyCount_append]
        have hyes : (opMessage op).replyTo = some r := by rw [hmreplyTo, ht]
        rw [if_pos hyes]
        have := hinv m2 hpin2
        rw [hc] at this
        simp [this]
      · rw [show (if m2.id = some r
            then { m2 with replies := some (p.replies.getD 0 + 1) } else m2) = m2 from if_neg hc]
        rcases List.mem_append.1 hm2 with h | h
        · rw [replyCount_append]
          have hne : ¬ (opMessage op).replyTo = m2.id := by
            rw [hmreplyTo, ht]
            intro hcon
            exact hc hcon.symm
          rw [if_neg hne, Nat.add_zero]
          exact hinv m2 h
        · have hme := List.mem_singleton.1 h
          subst hme
          rw [hmreplies, hmid, replyCount_append, hcount0]
          have hne : ¬ (opMessage op).replyTo = some op.newId := by
            rw [hmreplyTo, ht]
            intro hcon
            exact hrnew (by simpa using hcon)
          rw [if_neg hne]
          rfl

theorem goodState_runSends (ops : List SendOp) (st : ChatState)
    (hv : opsValid ops st = true) (hg : goodState st.msgs) :
    goodState (runSends ops st).msgs := by
  induction ops generalizing st with
  | nil => simpa [runSends] using hg
  | cons op rest ih =>
    rw [show opsValid (op :: rest) st
        = (opValid op st && opsValid rest (runSend op st)) from rfl,
      Bool.and_eq_true] at hv
    exact ih (runSend op st) hv.2 (goodState_step op st hv.1 hg)

/-- Claim C7: starting from a chat with no messages, after any finite
sequence of strictly sequential, fully successful sends, every reply
counter (a missing field counting as zero) equals the number of messages
in the chat whose reply-to id equals that message id. -/
theorem claim_C7_replies_invariant (ops : List SendOp) (ct : Option Nat)
    (hv : opsValid ops { chatTimestamp := ct, msgs := [] } = true) :
    repliesInvariant (runSends ops { chatTimestamp := ct, msgs := [] }).msgs :=
  (goodState_runSends ops { chatTimestamp := ct, msgs := [] } hv
    ⟨by simp, by simp, by simp, by simp [repliesInvariant]⟩).2.2.2

/-- Witness for claim C7 on a concrete two-send sequence with a reply. -/
theorem claim_C7_replies_invariant_witness :
    repliesInvariant (runSends sampleOps { chatTimestamp := some 0, msgs := [] }).msgs :=
  claim_C7_replies_invariant sampleOps (some 0) (by decide)

/-- Witness for claim C10: a successful send from the sample state resets
the input. -/
theorem claim_C10_component_sendMessage_witness :
    (ChatComponent.sendMessage true sampleComponentState).1.newMessage = ""
    ∧ (ChatComponent.sendMessage true sampleComponentState).1.selectedFile = none :=
  (claim_C10_component_sendMessage true sampleComponentState).2.2 rfl (by decide)

end ChatApp
